import Mathlib

/-!
Shallow embedding of the anonymous-message backend's HTTP core
(internal/server/server.go) together with a model of the storage
collaborator (the storage package is consumed through the four-operation
interface; its implementation is modelled from the spec).

Conventions of the embedding:
* A Go `(bool, error)` result is `Except Unit Bool` (the handler checks the
  error first, so only error-vs-value matters); `(string, bool, error)`
  becomes `Except Unit (Option String)`.
* An HTTP response is its status, the headers explicitly set by the
  handler, and the written body.
* `crypto/rand` is an oracle `rnd : Nat → Nat`; `generateCode` consumes it
  exactly as the source consumes `rand.Int` (one uniform draw below the
  alphabet size per character).
* The unbounded `for` loop of `getCode` is given fuel; `none` means the
  loop has not terminated within the fuel.
-/

namespace AnonMsg

/-- HTTP methods that the handlers distinguish. -/
inductive Method where
  | GET | PUT | POST | DELETE | OPTIONS
deriving DecidableEq, Repr

/-- An HTTP response: status code, the headers the handler set, and the body. -/
structure Response where
  status : Nat
  headers : List (String × String)
  body : String
deriving DecidableEq, Repr

/-- Character test of Go's `unicode.IsSpace` (the White_Space property),
used by `strings.TrimSpace` in `putMessage`. -/
def goIsSpace (c : Char) : Bool :=
  let n := c.toNat
  n = 0x20 || (0x9 ≤ n && n ≤ 0xD) || n = 0x85 || n = 0xA0 ||
  n = 0x1680 || (0x2000 ≤ n && n ≤ 0x200A) || n = 0x2028 || n = 0x2029 ||
  n = 0x202F || n = 0x205F || n = 0x3000

/-- Go `strings.TrimSpace`: drop leading and trailing whitespace runes. -/
def trimSpace (s : String) : String :=
  String.mk (((s.data.dropWhile goIsSpace).reverse.dropWhile goIsSpace).reverse)

/-- Go `strings.HasPrefix s pre` (also the test `strings.TrimPrefix` performs). -/
def goHasPre (s pre : String) : Bool :=
  decide (s.data.take pre.data.length = pre.data)

/-- Go `strings.TrimPrefix s pre`: strip `pre` when it is a prefix, else return `s`. -/
def goTrimPre (s pre : String) : String :=
  if goHasPre s pre then String.mk (s.data.drop pre.data.length) else s

/-- The path prefix under which message handlers live. -/
def msgPre : String := "/message/"

/-- The unambiguous code alphabet of `generateCode` (server.go line 55). -/
def letters : List Char :=
  "ABCDEFGHJKLMNPQRSTUVWXYZabcdefghijkmnopqrstuvwxyz23456789".data

/-- Embedding of `generateCode`: character `i` is `letters[rnd i % |letters|]`
(`rand.Int` returns a uniform value below the alphabet size; the modulus
makes the oracle total without changing reachable outputs). -/
def generateCode (rnd : Nat → Nat) (n : Nat) : String :=
  String.mk ((List.range n).map (fun i => letters.getD (rnd i % letters.length) 'A'))

/-- Embedding of `validBase64` (server.go lines 168-180): non-empty and all
characters from the base64 alphabet plus padding. -/
def validBase64 (s : String) : Bool :=
  s.data.length ≠ 0 && s.data.all (fun c =>
    ('A' ≤ c && c ≤ 'Z') || ('a' ≤ c && c ≤ 'z') || ('0' ≤ c && c ≤ '9') ||
    c = '+' || c = '/' || c = '=')

/-- The headers set by `secHeaders` (server.go lines 47-52), in source order. -/
def secHeaders : List (String × String) :=
  [("Referrer-Policy", "no-referrer"), ("Cache-Control", "no-store"),
   ("X-Content-Type-Options", "nosniff"), ("Pragma", "no-cache")]

/-- The JSON body `\x7b"code":"<c>"\x7d` written by `getCode` on success. -/
def jsonCode (c : String) : String := "\x7b\"code\":\"" ++ c ++ "\"\x7d"

/-- The storage contract consumed by the server: state type `σ`, the three
state-changing operations (`Ping` is unused by the handlers under proof).
TTL arguments are carried to mirror the Go signatures. -/
structure StoreModel (σ : Type) where
  reserveCode : σ → String → Nat → (Except Unit Bool) × σ
  attachCipher : σ → String → String → Nat → (Except Unit Bool) × σ
  getAndDelete : σ → String → (Except Unit (Option String)) × σ

/-- A message record is a reserved placeholder or an attached ciphertext. -/
inductive Record where
  | placeholder
  | attached (payload : String)
deriving DecidableEq, Repr

/-- Modelled from the spec: the storage collaborator's state, at most one
live record per code (the store keyed by Code; expiry is the collaborator's
concern and is not clocked here). -/
def Store : Type := String → Option Record

/-- Modelled from the spec: `reserve_code(code, ttl) -> bool` creates a
Placeholder iff none exists; `false` (not an error) on collision. -/
def memReserve (st : Store) (code : String) (_ttl : Nat) : (Except Unit Bool) × Store :=
  match st code with
  | some _ => (.ok false, st)
  | none => (.ok true, fun c => if c = code then some .placeholder else st c)

/-- Modelled from the spec: `attach_cipher(code, payload, ttl) -> bool`
transitions Placeholder → Attached iff a Placeholder exists for `code`;
`false` on conflict (code unknown or already attached) without mutating. -/
def memAttach (st : Store) (code payload : String) (_ttl : Nat) : (Except Unit Bool) × Store :=
  match st code with
  | some .placeholder => (.ok true, fun c => if c = code then some (.attached payload) else st c)
  | _ => (.ok false, st)

/-- Modelled from the spec: `get_and_delete(code)` atomically reads and
removes the Attached record; not found if absent or still a Placeholder. -/
def memGetDel (st : Store) (code : String) : (Except Unit (Option String)) × Store :=
  match st code with
  | some (.attached p) => (.ok (some p), fun c => if c = code then none else st c)
  | _ => (.ok none, st)

/-- The spec-modelled storage collaborator packaged as a `StoreModel`. -/
def memModel : StoreModel Store := ⟨memReserve, memAttach, memGetDel⟩

/-- The `mockStore` of server_test.go: fixed replies, state never changes. -/
structure MockStore where
  reserveOK : Bool
  attachOK : Bool
  attachErr : Bool
  getVal : String
  getOK : Bool
  getErr : Bool
deriving DecidableEq, Repr

/-- The `mockStore`'s method table (server_test.go lines 23-31). -/
def mockModel : StoreModel MockStore :=
  { reserveCode := fun m _ _ => (.ok m.reserveOK, m)
    attachCipher := fun m _ _ _ => (if m.attachErr then .error () else .ok m.attachOK, m)
    getAndDelete := fun m _ => (if m.getErr then .error () else .ok (if m.getOK then some m.getVal else none), m) }

/-- A mock whose `ReserveCode` and `AttachCipher` succeed, as in `TestPostCode201`. -/
def mockOK : MockStore :=
  { reserveOK := true, attachOK := true, attachErr := false
    getVal := "", getOK := false, getErr := false }

/-- Embedding of `getCode`'s reservation `for` loop (server.go lines 72-85):
attempt `i` generates `gen i` and calls `ReserveCode`; an error ends the
loop with the error, success ends it with the code, a collision retries. -/
def reserveLoop {σ : Type} (M : StoreModel σ) (ttl : Nat) (gen : Nat → String) :
    Nat → Nat → σ → Option ((Except Unit String) × σ)
  | 0, _, _ => none
  | fuel + 1, i, st =>
    match M.reserveCode st (gen i) ttl with
    | (.error _, st2) => some (.error (), st2)
    | (.ok true, st2) => some (.ok (gen i), st2)
    | (.ok false, st2) => reserveLoop M ttl gen fuel (i + 1) st2

/-- The candidate stream `getCode` feeds the loop: attempt `i` is
`generateCode` on the next 8 draws of the random oracle. -/
def genStream (rnd : Nat → Nat) (i : Nat) : String :=
  generateCode (fun j => rnd (8 * i + j)) 8

/-- Embedding of `getCode` (server.go lines 64-88): non-GET → 405 with no
headers; otherwise set security headers, run the reservation loop; storage
error → 500, success → 200 with the JSON body and a JSON content type. -/
def getCode {σ : Type} (M : StoreModel σ) (ttl : Nat) (rnd : Nat → Nat) (fuel : Nat)
    (method : Method) (st : σ) : Option (Response × σ) :=
  match method with
  | .GET =>
    match reserveLoop M ttl (genStream rnd) fuel 0 st with
    | none => none
    | some (.error _, st2) => some ({ status := 500, headers := secHeaders, body := "" }, st2)
    | some (.ok c, st2) =>
      some ({ status := 200, headers := secHeaders ++ [("Content-Type", "application/json")],
              body := jsonCode c }, st2)
  | _ => some ({ status := 405, headers := [], body := "" }, st)

/-- Embedding of `putMessage` (server.go lines 106-147). The body argument
is the result of `io.ReadAll` on the size-capped reader (`.error` = read
failure, e.g. over the byte cap). -/
def putMessage {σ : Type} (M : StoreModel σ) (msgTTL : Nat) (st : σ) (path : String)
    (body : Except Unit String) : Response × σ :=
  let code := goTrimPre path msgPre
  match body with
  | .error _ => ({ status := 400, headers := secHeaders, body := "" }, st)
  | .ok raw =>
    let ct := trimSpace raw
    if ct = "" then ({ status := 400, headers := secHeaders, body := "" }, st)
    else
      match M.attachCipher st code ct msgTTL with
      | (.error _, st2) => ({ status := 500, headers := secHeaders, body := "" }, st2)
      | (.ok false, st2) => ({ status := 409, headers := secHeaders, body := "" }, st2)
      | (.ok true, st2) => ({ status := 204, headers := secHeaders, body := "" }, st2)

/-- Embedding of `getMessage` (server.go lines 149-166). -/
def getMessage {σ : Type} (M : StoreModel σ) (st : σ) (path : String) : Response × σ :=
  let code := goTrimPre path msgPre
  match M.getAndDelete st code with
  | (.error _, st2) => ({ status := 500, headers := secHeaders, body := "" }, st2)
  | (.ok none, st2) => ({ status := 404, headers := secHeaders, body := "" }, st2)
  | (.ok (some ct), st2) =>
    ({ status := 200, headers := secHeaders ++ [("Content-Type", "text/plain")], body := ct }, st2)

/-- Embedding of the `message` dispatcher (server.go lines 90-104): prefix
check → 404 (no headers), PUT → `putMessage`, GET → `getMessage`, others →
405 (no headers). -/
def message {σ : Type} (M : StoreModel σ) (msgTTL : Nat) (st : σ) (method : Method)
    (path : String) (body : Except Unit String) : Response × σ :=
  if goHasPre path msgPre then
    match method with
    | .PUT => putMessage M msgTTL st path body
    | .GET => getMessage M st path
    | _ => ({ status := 405, headers := [], body := "" }, st)
  else ({ status := 404, headers := [], body := "" }, st)

/-- The router of `New` (server.go lines 35-43): `/code`, the `/message/`
subtree, `/health` (security headers then 200), anything else 404. -/
def serve {σ : Type} (M : StoreModel σ) (phTTL msgTTL : Nat) (rnd : Nat → Nat) (fuel : Nat)
    (st : σ) (method : Method) (path : String) (body : Except Unit String) :
    Option (Response × σ) :=
  if path = "/code" then getCode M phTTL rnd fuel method st
  else if goHasPre path msgPre then some (message M msgTTL st method path body)
  else if path = "/health" then some ({ status := 200, headers := secHeaders, body := "" }, st)
  else some ({ status := 404, headers := [], body := "" }, st)

/-! ## Helper lemmas (shared; not named by any claim) -/

/-- Stripping a prefix that is literally there yields the rest. -/
theorem goTrimPre_append (pre rest : String) : goTrimPre (pre ++ rest) pre = rest := by
  simp [goTrimPre, goHasPre, String.data_append, List.take_left, List.drop_left]

/-- With a non-empty trimmed body, `putMessage` is exactly the attach-result
case split of server.go lines 131-146, on the trimmed body. -/
theorem putMessage_ok {σ : Type} (M : StoreModel σ) (ttl : Nat) (st : σ) (path raw : String)
    (h : trimSpace raw ≠ "") :
    putMessage M ttl st path (.ok raw) =
      match M.attachCipher st (goTrimPre path msgPre) (trimSpace raw) ttl with
      | (.error _, st2) => ({ status := 500, headers := secHeaders, body := "" }, st2)
      | (.ok false, st2) => ({ status := 409, headers := secHeaders, body := "" }, st2)
      | (.ok true, st2) => ({ status := 204, headers := secHeaders, body := "" }, st2) := by
  unfold putMessage
  simp only [if_neg h]

/-- `getMessage` is exactly the get-and-delete case split of server.go lines 152-165. -/
theorem getMessage_eq {σ : Type} (M : StoreModel σ) (st : σ) (path : String) :
    getMessage M st path =
      match M.getAndDelete st (goTrimPre path msgPre) with
      | (.error _, st2) => ({ status := 500, headers := secHeaders, body := "" }, st2)
      | (.ok none, st2) => ({ status := 404, headers := secHeaders, body := "" }, st2)
      | (.ok (some ct), st2) =>
        ({ status := 200, headers := secHeaders ++ [("Content-Type", "text/plain")], body := ct },
          st2) := rfl

/-- A successful modelled `get_and_delete` found an Attached record and removed it. -/
theorem memGetDel_found (st : Store) (code ct : String) (st2 : Store)
    (h : memGetDel st code = (.ok (some ct), st2)) :
    st code = some (.attached ct) ∧ st2 code = none := by
  cases hst : st code with
  | none => simp [memGetDel, hst] at h
  | some r =>
    cases r with
    | placeholder => simp [memGetDel, hst] at h
    | attached p =>
      simp only [memGetDel, hst] at h
      obtain ⟨h1, h2⟩ := Prod.mk.injEq .. |>.mp h
      obtain rfl : p = ct := by simpa using h1
      subst h2
      simp [hst]

/-- A storage model whose every operation fails, to exercise the error paths
(the real collaborator can fail on connectivity). -/
def errStore : StoreModel Unit :=
  ⟨fun _ _ _ => (.error (), ()), fun _ _ _ _ => (.error (), ()), fun _ _ => (.error (), ())⟩

/-- The three defensive headers of the spec are among a response's headers. -/
def hdrsOK (r : Response) : Prop :=
  ("Cache-Control", "no-store") ∈ r.headers ∧ ("Referrer-Policy", "no-referrer") ∈ r.headers ∧
  ("X-Content-Type-Options", "nosniff") ∈ r.headers

instance (r : Response) : Decidable (hdrsOK r) := by unfold hdrsOK; infer_instance

/-- No branch of `putMessage` produces status 429. -/
theorem putMessage_no429 {σ : Type} (M : StoreModel σ) (ttl : Nat) (st : σ) (path : String)
    (body : Except Unit String) : (putMessage M ttl st path body).1.status ≠ 429 := by
  unfold putMessage
  rcases body with e | raw
  · simp
  · dsimp only
    by_cases h : trimSpace raw = ""
    · simp [h]
    · simp only [if_neg h]
      rcases M.attachCipher st (goTrimPre path msgPre) (trimSpace raw) ttl with ⟨r, st2⟩
      rcases r with e | b
      · simp
      · cases b <;> simp

/-- No branch of `getMessage` produces status 429. -/
theorem getMessage_no429 {σ : Type} (M : StoreModel σ) (st : σ) (path : String) :
    (getMessage M st path).1.status ≠ 429 := by
  rw [getMessage_eq]
  rcases M.getAndDelete st (goTrimPre path msgPre) with ⟨r, st2⟩
  rcases r with e | o
  · simp
  · cases o <;> simp

/-- No branch of `getCode` produces status 429. -/
theorem getCode_no429 {σ : Type} (M : StoreModel σ) (ttl : Nat) (rnd : Nat → Nat) (fuel : Nat)
    (method : Method) (st : σ) (resp : Response) (st2 : σ)
    (h : getCode M ttl rnd fuel method st = some (resp, st2)) : resp.status ≠ 429 := by
  unfold getCode at h
  cases method with
  | GET =>
    rcases hr : reserveLoop M ttl (genStream rnd) fuel 0 st with _ | ⟨e | c, st3⟩ <;>
        rw [hr] at h
    · exact absurd h (by simp)
    · rw [Option.some.injEq] at h
      obtain ⟨h1, h2⟩ := Prod.mk.injEq .. |>.mp h
      subst h1
      intro hc
      simp at hc
    · rw [Option.some.injEq] at h
      obtain ⟨h1, h2⟩ := Prod.mk.injEq .. |>.mp h
      subst h1
      intro hc
      simp at hc
  | PUT =>
    rw [Option.some.injEq] at h
    obtain ⟨h1, h2⟩ := Prod.mk.injEq .. |>.mp h
    subst h1; intro hc; simp at hc
  | POST =>
    rw [Option.some.injEq] at h
    obtain ⟨h1, h2⟩ := Prod.mk.injEq .. |>.mp h
    subst h1; intro hc; simp at hc
  | DELETE =>
    rw [Option.some.injEq] at h
    obtain ⟨h1, h2⟩ := Prod.mk.injEq .. |>.mp h
    subst h1; intro hc; simp at hc
  | OPTIONS =>
    rw [Option.some.injEq] at h
    obtain ⟨h1, h2⟩ := Prod.mk.injEq .. |>.mp h
    subst h1; intro hc; simp at hc

/-- No branch of `message` produces status 429. -/
theorem message_no429 {σ : Type} (M : StoreModel σ) (ttl : Nat) (st : σ) (method : Method)
    (path : String) (body : Except Unit String) :
    (message M ttl st method path body).1.status ≠ 429 := by
  unfold message
  by_cases hp : goHasPre path msgPre
  · simp only [if_pos hp]
    cases method with
    | PUT => exact putMessage_no429 M ttl st path body
    | GET => exact getMessage_no429 M st path
    | POST => intro hc; simp at hc
    | DELETE => intro hc; simp at hc
    | OPTIONS => intro hc; simp at hc
  · simp only [if_neg hp]
    intro hc
    simp at hc

/-- No branch of the router produces status 429. -/
theorem serve_no429 {σ : Type} (M : StoreModel σ) (pt mt : Nat) (rnd : Nat → Nat) (fuel : Nat)
    (st : σ) (method : Method) (path : String) (body : Except Unit String)
    (resp : Response) (st2 : σ)
    (h : serve M pt mt rnd fuel st method path body = some (resp, st2)) : resp.status ≠ 429 := by
  unfold serve at h
  by_cases h1 : path = "/code"
  · rw [if_pos h1] at h
    exact getCode_no429 M pt rnd fuel method st resp st2 h
  · rw [if_neg h1] at h
    by_cases h2 : goHasPre path msgPre
    · rw [if_pos h2, Option.some.injEq] at h
      have hr : resp = (message M mt st method path body).1 := by rw [h]
      rw [hr]
      exact message_no429 M mt st method path body
    · rw [if_neg h2] at h
      by_cases h3 : path = "/health"
      · rw [if_pos h3, Option.some.injEq] at h
        obtain ⟨hh1, hh2⟩ := Prod.mk.injEq .. |>.mp h
        subst hh1; intro hc; simp at hc
      · rw [if_neg h3, Option.some.injEq] at h
        obtain ⟨hh1, hh2⟩ := Prod.mk.injEq .. |>.mp h
        subst hh1; intro hc; simp at hc

/-! ## Claims -/

/-- C1: a `GET /message/{code}` answered 200 delivered the attached payload
and removed the record in the same atomic get-and-delete; every subsequent
`GET` for the same code answers 404 and leaves the store unchanged, so the
payload is never delivered again. -/
theorem destructive_retrieval (st : Store) (path : String) (resp : Response) (st2 : Store)
    (h : getMessage memModel st path = (resp, st2)) (h200 : resp.status = 200) :
    st (goTrimPre path msgPre) = some (.attached resp.body) ∧
    st2 (goTrimPre path msgPre) = none ∧
    getMessage memModel st2 path = ({ status := 404, headers := secHeaders, body := "" }, st2) := by
  rw [getMessage_eq] at h
  cases hst : st (goTrimPre path msgPre) with
  | none =>
    rw [show memModel.getAndDelete st (goTrimPre path msgPre) = (.ok none, st) from by
      simp [memModel, memGetDel, hst]] at h
    obtain ⟨h1, h2⟩ := Prod.mk.injEq .. |>.mp h
    subst h1
    simp at h200
  | some r =>
    cases r with
    | placeholder =>
      rw [show memModel.getAndDelete st (goTrimPre path msgPre) = (.ok none, st) from by
        simp [memModel, memGetDel, hst]] at h
      obtain ⟨h1, h2⟩ := Prod.mk.injEq .. |>.mp h
      subst h1
      simp at h200
    | attached p =>
      rw [show memModel.getAndDelete st (goTrimPre path msgPre) =
          (.ok (some p), fun c => if c = goTrimPre path msgPre then none else st c) from by
        simp [memModel, memGetDel, hst]] at h
      obtain ⟨h1, h2⟩ := Prod.mk.injEq .. |>.mp h
      subst h1
      subst h2
      refine ⟨by simp [hst], by simp, ?_⟩
      rw [getMessage_eq,
        show memModel.getAndDelete (fun c => if c = goTrimPre path msgPre then none else st c)
            (goTrimPre path msgPre) =
          (.ok none, fun c => if c = goTrimPre path msgPre then none else st c) from by
        simp [memModel, memGetDel]]

/-- A store holding one attached record, for exercising C1. -/
def stW : Store := fun c => if c = "C1" then some (.attached "hello") else none

/-- C1 witness: on a store holding `C1 ↦ attached "hello"`, the retrieval
consequences hold at the concrete request `GET /message/C1`. -/
theorem destructive_retrieval_wit :
    stW (goTrimPre "/message/C1" msgPre) =
      some (.attached (getMessage memModel stW "/message/C1").1.body) ∧
    (getMessage memModel stW "/message/C1").2 (goTrimPre "/message/C1" msgPre) = none ∧
    getMessage memModel (getMessage memModel stW "/message/C1").2 "/message/C1" =
      ({ status := 404, headers := secHeaders, body := "" },
        (getMessage memModel stW "/message/C1").2) :=
  destructive_retrieval stW "/message/C1" (getMessage memModel stW "/message/C1").1
    (getMessage memModel stW "/message/C1").2 rfl rfl

/-- C5: a `PUT /message/{code}` whose body trims to empty is answered 400
with the state unchanged under every storage model (so no storage call was
made), and a subsequent `GET` for a code with no record still answers 404. -/
theorem empty_put_rejected {σ : Type} (M : StoreModel σ) (ttl : Nat) (st : σ)
    (path raw : String) (h : trimSpace raw = "") :
    putMessage M ttl st path (.ok raw) =
      ({ status := 400, headers := secHeaders, body := "" }, st) ∧
    ∀ mst : Store, mst (goTrimPre path msgPre) = none →
      getMessage memModel mst path = ({ status := 404, headers := secHeaders, body := "" }, mst) := by
  constructor
  · unfold putMessage
    simp [h]
  · intro mst hm
    rw [getMessage_eq,
      show memModel.getAndDelete mst (goTrimPre path msgPre) = (.ok none, mst) from by
        simp [memModel, memGetDel, hm]]

/-- C5 witness: the whitespace-only body `"  "` at `PUT /message/C1`. -/
theorem empty_put_rejected_wit :
    putMessage mockModel 0 mockOK "/message/C1" (.ok "  ") =
      ({ status := 400, headers := secHeaders, body := "" }, mockOK) ∧
    ∀ mst : Store, mst (goTrimPre "/message/C1" msgPre) = none →
      getMessage memModel mst "/message/C1" =
        ({ status := 404, headers := secHeaders, body := "" }, mst) :=
  empty_put_rejected mockModel 0 mockOK "/message/C1" "  " (by decide)

/-- C6: for a valid non-empty body the response is the one-to-one image of
the attach result — success ↦ 204 with empty body, conflict ↦ 409, error ↦
500 — and on the modelled store a conflict mutates nothing. -/
theorem attach_outcome_map {σ : Type} (M : StoreModel σ) (ttl : Nat) (st : σ)
    (path raw : String) (h : trimSpace raw ≠ "") :
    putMessage M ttl st path (.ok raw) =
      (match M.attachCipher st (goTrimPre path msgPre) (trimSpace raw) ttl with
       | (.error _, st2) => ({ status := 500, headers := secHeaders, body := "" }, st2)
       | (.ok false, st2) => ({ status := 409, headers := secHeaders, body := "" }, st2)
       | (.ok true, st2) => ({ status := 204, headers := secHeaders, body := "" }, st2)) ∧
    ∀ (mst : Store) (code p : String) (t : Nat),
      (memAttach mst code p t).1 = .ok false → (memAttach mst code p t).2 = mst := by
  refine ⟨putMessage_ok M ttl st path raw h, ?_⟩
  intro mst code p t hf
  cases hst : mst code with
  | none => simp [memAttach, hst]
  | some r =>
    cases r with
    | placeholder => simp [memAttach, hst] at hf
    | attached q => simp [memAttach, hst]

/-- C6 witness: body `"hi"` against the test mock whose attach succeeds. -/
theorem attach_outcome_map_wit :
    putMessage mockModel 0 mockOK "/message/x" (.ok "hi") =
      (match mockModel.attachCipher mockOK (goTrimPre "/message/x" msgPre) (trimSpace "hi") 0 with
       | (.error _, st2) => ({ status := 500, headers := secHeaders, body := "" }, st2)
       | (.ok false, st2) => ({ status := 409, headers := secHeaders, body := "" }, st2)
       | (.ok true, st2) => ({ status := 204, headers := secHeaders, body := "" }, st2)) ∧
    ∀ (mst : Store) (code p : String) (t : Nat),
      (memAttach mst code p t).1 = .ok false → (memAttach mst code p t).2 = mst :=
  attach_outcome_map mockModel 0 mockOK "/message/x" "hi" (by decide)

/-- C7: the `GET /message/{code}` response is the one-to-one image of the
get-and-delete result — found ↦ 200 with the payload verbatim as body and
content type `text/plain`, not found ↦ 404, error ↦ 500 — and on the
modelled store a found result leaves the record gone. -/
theorem getdel_outcome_map {σ : Type} (M : StoreModel σ) (st : σ) (path : String) :
    getMessage M st path =
      (match M.getAndDelete st (goTrimPre path msgPre) with
       | (.error _, st2) => ({ status := 500, headers := secHeaders, body := "" }, st2)
       | (.ok none, st2) => ({ status := 404, headers := secHeaders, body := "" }, st2)
       | (.ok (some ct), st2) =>
         ({ status := 200, headers := secHeaders ++ [("Content-Type", "text/plain")],
            body := ct }, st2)) ∧
    ∀ (mst mst2 : Store) (code ct : String),
      memGetDel mst code = (.ok (some ct), mst2) → mst2 code = none :=
  ⟨getMessage_eq M st path, fun mst mst2 code ct hf => (memGetDel_found mst code ct mst2 hf).2⟩

/-- C9: the payload handed to `attach_cipher` is the whitespace-trimmed
body: attachment succeeds with 204 but the subsequent retrieval returns the
trimmed string, not the submitted body verbatim. -/
theorem trimmed_not_verbatim (mst : Store) (code raw : String) (ttl : Nat)
    (hph : mst code = some .placeholder) (h : trimSpace raw ≠ "") (hw : trimSpace raw ≠ raw) :
    (∀ (σ : Type) (M : StoreModel σ) (st : σ) (path : String),
      putMessage M ttl st path (.ok raw) =
        match M.attachCipher st (goTrimPre path msgPre) (trimSpace raw) ttl with
        | (.error _, st2) => ({ status := 500, headers := secHeaders, body := "" }, st2)
        | (.ok false, st2) => ({ status := 409, headers := secHeaders, body := "" }, st2)
        | (.ok true, st2) => ({ status := 204, headers := secHeaders, body := "" }, st2)) ∧
    (putMessage memModel ttl mst (msgPre ++ code) (.ok raw)).1.status = 204 ∧
    (getMessage memModel (putMessage memModel ttl mst (msgPre ++ code) (.ok raw)).2
        (msgPre ++ code)).1.body = trimSpace raw ∧
    (getMessage memModel (putMessage memModel ttl mst (msgPre ++ code) (.ok raw)).2
        (msgPre ++ code)).1.body ≠ raw := by
  have e1 : putMessage memModel ttl mst (msgPre ++ code) (.ok raw) =
      ({ status := 204, headers := secHeaders, body := "" },
        fun c => if c = code then some (.attached (trimSpace raw)) else mst c) := by
    rw [putMessage_ok memModel ttl mst (msgPre ++ code) raw h, goTrimPre_append]
    simp [memModel, memAttach, hph]
  have e2 : getMessage memModel
      (fun c => if c = code then some (.attached (trimSpace raw)) else mst c) (msgPre ++ code) =
      ({ status := 200, headers := secHeaders ++ [("Content-Type", "text/plain")],
         body := trimSpace raw },
        fun c => if c = code then none
          else if c = code then some (.attached (trimSpace raw)) else mst c) := by
    rw [getMessage_eq, goTrimPre_append,
      show memModel.getAndDelete
          (fun c => if c = code then some (.attached (trimSpace raw)) else mst c) code =
        (.ok (some (trimSpace raw)), fun c => if c = code then none
          else if c = code then some (.attached (trimSpace raw)) else mst c) from by
      simp [memModel, memGetDel]]
  refine ⟨fun σ M st path => putMessage_ok M ttl st path raw h, ?_, ?_, ?_⟩
  · rw [e1]
  · rw [e1]
    dsimp only
    rw [e2]
  · rw [e1]
    dsimp only
    rw [e2]
    exact fun hc => hw hc

/-- A store holding one placeholder record, for exercising C9. -/
def stP : Store := fun c => if c = "C1" then some .placeholder else none

/-- C9 witness: body `"  hello  "` attached to the reserved code `C1` is
retrieved as `"hello"`. -/
theorem trimmed_not_verbatim_wit :
    (∀ (σ : Type) (M : StoreModel σ) (st : σ) (path : String),
      putMessage M 0 st path (.ok "  hello  ") =
        match M.attachCipher st (goTrimPre path msgPre) (trimSpace "  hello  ") 0 with
        | (.error _, st2) => ({ status := 500, headers := secHeaders, body := "" }, st2)
        | (.ok false, st2) => ({ status := 409, headers := secHeaders, body := "" }, st2)
        | (.ok true, st2) => ({ status := 204, headers := secHeaders, body := "" }, st2)) ∧
    (putMessage memModel 0 stP (msgPre ++ "C1") (.ok "  hello  ")).1.status = 204 ∧
    (getMessage memModel (putMessage memModel 0 stP (msgPre ++ "C1") (.ok "  hello  ")).2
        (msgPre ++ "C1")).1.body = trimSpace "  hello  " ∧
    (getMessage memModel (putMessage memModel 0 stP (msgPre ++ "C1") (.ok "  hello  ")).2
        (msgPre ++ "C1")).1.body ≠ "  hello  " :=
  trimmed_not_verbatim stP "C1" "  hello  " 0 (by decide) (by decide) (by decide)

/-- C10: `validBase64` is never consulted: a body whose trimmed form is
non-empty but fails the base64 check is still forwarded to `attach_cipher`
and the response is the attach outcome, never 400. -/
theorem base64_never_checked {σ : Type} (M : StoreModel σ) (ttl : Nat) (st : σ)
    (path raw : String) (h : trimSpace raw ≠ "") (_hb : validBase64 (trimSpace raw) = false) :
    (putMessage M ttl st path (.ok raw)).1.status ≠ 400 ∧
    putMessage M ttl st path (.ok raw) =
      (match M.attachCipher st (goTrimPre path msgPre) (trimSpace raw) ttl with
       | (.error _, st2) => ({ status := 500, headers := secHeaders, body := "" }, st2)
       | (.ok false, st2) => ({ status := 409, headers := secHeaders, body := "" }, st2)
       | (.ok true, st2) => ({ status := 204, headers := secHeaders, body := "" }, st2)) := by
  refine ⟨?_, putMessage_ok M ttl st path raw h⟩
  rw [putMessage_ok M ttl st path raw h]
  rcases M.attachCipher st (goTrimPre path msgPre) (trimSpace raw) ttl with ⟨r, st2⟩
  rcases r with e | b
  · simp
  · cases b <;> simp

/-- C10 witness: the body `"%%%"` (outside the base64 alphabet) against the
test mock — answered 204, not 400. -/
theorem base64_never_checked_wit :
    (putMessage mockModel 0 mockOK "/message/x" (.ok "%%%")).1.status ≠ 400 ∧
    putMessage mockModel 0 mockOK "/message/x" (.ok "%%%") =
      (match mockModel.attachCipher mockOK (goTrimPre "/message/x" msgPre)
          (trimSpace "%%%") 0 with
       | (.error _, st2) => ({ status := 500, headers := secHeaders, body := "" }, st2)
       | (.ok false, st2) => ({ status := 409, headers := secHeaders, body := "" }, st2)
       | (.ok true, st2) => ({ status := 204, headers := secHeaders, body := "" }, st2)) :=
  base64_never_checked mockModel 0 mockOK "/message/x" "%%%" (by decide) (by decide)

/-- C2 (evaluation at the failing input): `POST /code` is answered 405 by
`getCode` — the handler accepts only GET — and the successful GET path is
answered 200 with no `Location` header ever set, while a reserve failure is
answered 500. The repository's own `TestPostCode201` demands 201 plus a
`Location` header for POST. -/
theorem post_code_bug :
    serve mockModel 0 0 (fun _ => 0) 1 mockOK .POST "/code" (.ok "") =
      some ({ status := 405, headers := [], body := "" }, mockOK) ∧
    serve mockModel 0 0 (fun _ => 0) 1 mockOK .GET "/code" (.ok "") =
      some ({ status := 200, headers := secHeaders ++ [("Content-Type", "application/json")],
              body := jsonCode "AAAAAAAA" }, mockOK) ∧
    serve errStore 0 0 (fun _ => 0) 1 () .GET "/code" (.ok "") =
      some ({ status := 500, headers := secHeaders, body := "" }, ()) := by
  decide

/-- C3 (evaluation at the failing input): the router has no admission
control — no branch of any handler ever produces 429, and of two
consecutive `GET /code` requests the second is processed normally (200),
not rejected, contradicting the spec's burst-1 rate-limit behaviour and the
repository's own `TestRateLimit`. -/
theorem no_rate_limiter :
    (∀ (σ : Type) (M : StoreModel σ) (pt mt : Nat) (rnd : Nat → Nat) (fuel : Nat) (st : σ)
        (method : Method) (path : String) (body : Except Unit String)
        (resp : Response) (st2 : σ),
      serve M pt mt rnd fuel st method path body = some (resp, st2) → resp.status ≠ 429) ∧
    serve mockModel 0 0 (fun _ => 0) 1 mockOK .GET "/code" (.ok "") =
      some ({ status := 200, headers := secHeaders ++ [("Content-Type", "application/json")],
              body := jsonCode "AAAAAAAA" }, mockOK) ∧
    ∀ st1 : MockStore,
      (serve mockModel 0 0 (fun _ => 0) 1 mockOK .GET "/code" (.ok "")).map Prod.snd =
        some st1 →
      (serve mockModel 0 0 (fun _ => 0) 1 st1 .GET "/code" (.ok "")).map (fun q => q.1.status) =
        some 200 := by
  refine ⟨fun σ M pt mt rnd fuel st method path body resp st2 h =>
    serve_no429 M pt mt rnd fuel st method path body resp st2 h, by decide, ?_⟩
  intro st1 h
  have hcomp : (serve mockModel 0 0 (fun _ => 0) 1 mockOK .GET "/code" (.ok "")).map Prod.snd =
      some mockOK := by decide
  rw [hcomp, Option.some.injEq] at h
  subst h
  decide

/-- C4 counterexample: the method-not-allowed branch of the message
dispatcher (e.g. `POST /message/x`) sets no headers at all — in particular
no `Cache-Control: no-store` — so not every response carries the defensive
headers. -/
theorem headers_missing_405 :
    (message mockModel 0 mockOK .POST "/message/x" (.ok "hi")).1.headers = [] ∧
    ("Cache-Control", "no-store") ∉
      (message mockModel 0 mockOK .POST "/message/x" (.ok "hi")).1.headers ∧
    (serve mockModel 0 0 (fun _ => 0) 1 mockOK .DELETE "/message/x" (.ok "")).map
      (fun q => q.1.headers) = some [] := by
  decide

/-- C4 amended: every response of the payload handlers (`PUT`/`GET` on
`/message/{code}`), of `getCode`'s GET path, and of `/health` carries the
defensive headers; the method-not-allowed and dispatcher not-found branches
(see the counterexample) do not. -/
theorem headers_on_handled_responses {σ : Type} (M : StoreModel σ) (pt mt : Nat)
    (rnd : Nat → Nat) (fuel : Nat) (st : σ) (path : String) (body : Except Unit String) :
    hdrsOK (putMessage M mt st path body).1 ∧
    hdrsOK (getMessage M st path).1 ∧
    (∀ (resp : Response) (st2 : σ),
      getCode M pt rnd fuel .GET st = some (resp, st2) → hdrsOK resp) ∧
    (∀ (method : Method) (bd : Except Unit String) (resp : Response) (st2 : σ),
      serve M pt mt rnd fuel st method "/health" bd = some (resp, st2) → hdrsOK resp) := by
  refine ⟨?_, ?_, ?_, ?_⟩
  · unfold putMessage
    rcases body with e | raw
    · simp [hdrsOK, secHeaders]
    · dsimp only
      by_cases h : trimSpace raw = ""
      · simp only [if_pos h]
        simp [hdrsOK, secHeaders]
      · simp only [if_neg h]
        rcases M.attachCipher st (goTrimPre path msgPre) (trimSpace raw) mt with ⟨r, st2⟩
        rcases r with e | b
        · simp [hdrsOK, secHeaders]
        · cases b <;> simp [hdrsOK, secHeaders]
  · rw [getMessage_eq]
    rcases M.getAndDelete st (goTrimPre path msgPre) with ⟨r, st2⟩
    rcases r with e | o
    · simp [hdrsOK, secHeaders]
    · cases o <;> simp [hdrsOK, secHeaders]
  · intro resp st2 h
    unfold getCode at h
    rcases hr : reserveLoop M pt (genStream rnd) fuel 0 st with _ | ⟨e | c, st3⟩ <;> rw [hr] at h
    · exact absurd h (by simp)
    · rw [Option.some.injEq] at h
      obtain ⟨h1, h2⟩ := Prod.mk.injEq .. |>.mp h
      subst h1
      simp [hdrsOK, secHeaders]
    · rw [Option.some.injEq] at h
      obtain ⟨h1, h2⟩ := Prod.mk.injEq .. |>.mp h
      subst h1
      simp [hdrsOK, secHeaders]
  · intro method bd resp st2 h
    unfold serve at h
    rw [if_neg (by decide : ¬ ("/health" : String) = "/code"),
      if_neg (by decide : ¬ goHasPre "/health" msgPre = true),
      if_pos rfl, Option.some.injEq] at h
    obtain ⟨h1, h2⟩ := Prod.mk.injEq .. |>.mp h
    subst h1
    simp [hdrsOK, secHeaders]

/-- C8: the reservation handler generates 8-character candidates from the
unambiguous alphabet, passes each with the placeholder TTL to
`reserve_code`, silently retries on collision, aborts with a 500 carrying
no code on the first storage error, and answers with a code only when
`reserve_code` returned true for that exact candidate. -/
theorem reservation_algorithm {σ : Type} (M : StoreModel σ) (ttl : Nat) (rnd : Nat → Nat) :
    (∀ i, (genStream rnd i).length = 8 ∧ ∀ c ∈ (genStream rnd i).data, c ∈ letters) ∧
    (∀ (fuel : Nat) (st : σ), getCode M ttl rnd fuel .GET st =
      (reserveLoop M ttl (genStream rnd) fuel 0 st).map (fun r =>
        match r with
        | (.error _, st2) => ({ status := 500, headers := secHeaders, body := "" }, st2)
        | (.ok c, st2) =>
          ({ status := 200, headers := secHeaders ++ [("Content-Type", "application/json")],
             body := jsonCode c }, st2))) ∧
    (∀ (fuel i : Nat) (st st2 : σ),
      M.reserveCode st (genStream rnd i) ttl = (.ok false, st2) →
      reserveLoop M ttl (genStream rnd) (fuel + 1) i st =
        reserveLoop M ttl (genStream rnd) fuel (i + 1) st2) ∧
    (∀ (fuel i : Nat) (st st2 : σ),
      M.reserveCode st (genStream rnd i) ttl = (.error (), st2) →
      reserveLoop M ttl (genStream rnd) (fuel + 1) i st = some (.error (), st2)) ∧
    (∀ (fuel i : Nat) (st : σ) (c : String) (st2 : σ),
      reserveLoop M ttl (genStream rnd) fuel i st = some (.ok c, st2) →
      ∃ (j : Nat) (stj : σ), i ≤ j ∧ M.reserveCode stj (genStream rnd j) ttl = (.ok true, st2) ∧
        c = genStream rnd j) := by
  refine ⟨?_, ?_, ?_, ?_, ?_⟩
  · intro i
    constructor
    · simp [genStream, generateCode, String.length]
    · intro c hc
      simp only [genStream, generateCode] at hc
      rw [List.mem_map] at hc
      obtain ⟨k, hk, rfl⟩ := hc
      have hlt : rnd (8 * i + k) % letters.length < letters.length :=
        Nat.mod_lt _ (by decide)
      rw [List.getD_eq_getElem letters 'A' hlt]
      exact List.getElem_mem hlt
  · intro fuel st
    unfold getCode
    rcases hr : reserveLoop M ttl (genStream rnd) fuel 0 st with _ | ⟨e | c, st2⟩ <;> simp
  · intro fuel i st st2 h
    rw [show reserveLoop M ttl (genStream rnd) (fuel + 1) i st =
        (match M.reserveCode st (genStream rnd i) ttl with
         | (.error _, st3) => some (.error (), st3)
         | (.ok true, st3) => some (.ok (genStream rnd i), st3)
         | (.ok false, st3) => reserveLoop M ttl (genStream rnd) fuel (i + 1) st3) from rfl, h]
  · intro fuel i st st2 h
    rw [show reserveLoop M ttl (genStream rnd) (fuel + 1) i st =
        (match M.reserveCode st (genStream rnd i) ttl with
         | (.error _, st3) => some (.error (), st3)
         | (.ok true, st3) => some (.ok (genStream rnd i), st3)
         | (.ok false, st3) => reserveLoop M ttl (genStream rnd) fuel (i + 1) st3) from rfl, h]
  · intro fuel
    induction fuel with
    | zero => intro i st c st2 h; exact absurd h (by simp [reserveLoop])
    | succ n ih =>
      intro i st c st2 h
      rw [show reserveLoop M ttl (genStream rnd) (n + 1) i st =
          (match M.reserveCode st (genStream rnd i) ttl with
           | (.error _, st3) => some (.error (), st3)
           | (.ok true, st3) => some (.ok (genStream rnd i), st3)
           | (.ok false, st3) => reserveLoop M ttl (genStream rnd) n (i + 1) st3) from rfl] at h
      rcases hr : M.reserveCode st (genStream rnd i) ttl with ⟨e | b, st3⟩
      · rw [hr] at h
        simp at h
      · cases b
        · rw [hr] at h
          obtain ⟨j, stj, hij, hres, hc⟩ := ih (i + 1) st3 c st2 h
          exact ⟨j, stj, Nat.le_trans (Nat.le_succ i) hij, hres, hc⟩
        · rw [hr] at h
          rw [Option.some.injEq] at h
          obtain ⟨h1, h2⟩ := Prod.mk.injEq .. |>.mp h
          obtain rfl : c = genStream rnd i := by simpa using h1.symm
          exact ⟨i, st, Nat.le_refl i, by rw [hr, h2], rfl⟩

end AnonMsg
